import Mathlib

/-!
Shallow embedding of the ATLAS Widget device-context probing layer
(`src/electron/device-context.ts`) and of the ticket-submission IPC handler
(`submit-ticket` in `src/electron/i18n.ts`), together with theorems settling
the specification claims about them.

Modelling conventions:
  - A JavaScript string is a Lean `String` (the probe outputs are ASCII, so
    UTF-16 subtleties do not arise).
  - A call to `execSync` / `readFileSync` / `fetch` is represented by its
    outcome, passed in as an `Except` value: `.error` means the call threw.
  - JavaScript numbers appearing here are integers well below 2^53, so they
    are modelled exactly by `Nat` / `Int`.
  - The regular expressions used by the probes are small; each one is
    embedded as a dedicated scanning function implementing JavaScript's
    leftmost-match backtracking semantics for that pattern.  `\s` is
    modelled by the ASCII whitespace characters (the probe outputs contain
    no Unicode whitespace), and `.` matches any character except the line
    terminators `\n` and `\r`.
-/

namespace AtlasWidget

/-- ASCII whitespace, the characters matched by JavaScript `\s` (and trimmed
by `String.prototype.trim`) that can occur in the probed outputs. -/
def isJsWs (c : Char) : Bool :=
  c == ' ' || c == '\t' || c == '\n' || c == '\r' || c == '\x0b' || c == '\x0c'

/-- Characters that JavaScript `.` does not match (line terminators). -/
def isLineTerm (c : Char) : Bool :=
  c == '\n' || c == '\r'

/-- Embedding of JavaScript `String.prototype.trim` on a char list. -/
def trimChars (l : List Char) : List Char :=
  ((l.dropWhile isJsWs).reverse.dropWhile isJsWs).reverse

/-- Embedding of JavaScript `String.prototype.trim`. -/
def jsTrim (s : String) : String :=
  String.mk (trimChars s.data)

/-- Embedding of JavaScript `String.prototype.toUpperCase` (ASCII data). -/
def jsToUpperCase (s : String) : String :=
  String.mk (s.data.map Char.toUpper)

/-- Decimal digit test (`\d`). -/
def isDec (c : Char) : Bool :=
  '0' ≤ c && c ≤ '9'

/-- Hexadecimal digit test (`[0-9a-fA-F]`). -/
def isHex (c : Char) : Bool :=
  isDec c || ('a' ≤ c && c ≤ 'f') || ('A' ≤ c && c ≤ 'F')

/-- Numeric value of one hexadecimal digit. -/
def hexDigitVal (c : Char) : Nat :=
  if isDec c then c.toNat - 48
  else if 'a' ≤ c && c ≤ 'f' then c.toNat - 87
  else c.toNat - 55

/-- Value of a hexadecimal digit string (`parseInt(s, 16)` on a pure hex
string). -/
def hexVal (l : List Char) : Nat :=
  l.foldl (fun a c => a * 16 + hexDigitVal c) 0

/-- Value of a decimal digit string (`parseInt(s, 10)` on a pure digit
string). -/
def decVal (l : List Char) : Nat :=
  l.foldl (fun a c => a * 10 + (c.toNat - 48)) 0

/-- Embedding of JavaScript `parseInt(s)` with no radix argument: skip
leading whitespace, read an optional sign, auto-detect a `0x`/`0X` prefix
(hexadecimal) and otherwise parse the longest decimal digit prefix,
ignoring any trailing junk.  `none` models `NaN`. -/
def jsParseInt (s : String) : Option Int :=
  let l := s.data.dropWhile isJsWs
  let signed : Bool × List Char :=
    match l with
    | '-' :: rest => (true, rest)
    | '+' :: rest => (false, rest)
    | rest => (false, rest)
  let body := signed.2
  let mag : Option Nat :=
    match body with
    | '0' :: 'x' :: rest =>
        let run := rest.takeWhile isHex
        if run.isEmpty then none else some (hexVal run)
    | '0' :: 'X' :: rest =>
        let run := rest.takeWhile isHex
        if run.isEmpty then none else some (hexVal run)
    | rest =>
        let run := rest.takeWhile isDec
        if run.isEmpty then none else some (decVal run)
  mag.map (fun n => if signed.1 then -(n : Int) else (n : Int))

/-- Embedding of `(v / 1073741824).toFixed(0) + " GB"` for an exact integer
byte count `v`: ECMAScript `toFixed(0)` picks the integer closest to the
value, ties towards the larger integer, i.e. `⌊v / 2^30 + 1/2⌋`. -/
def gbString (v : Int) : String :=
  toString ((2 * v + 1073741824).fdiv 2147483648) ++ " GB"

/-- Embedding of `(bytes / 1073741824).toFixed(1)` for a byte count:
one decimal digit, rounding as ECMAScript `toFixed` does. -/
def toFixed1GB (bytes : Nat) : String :=
  let scaled := (20 * bytes + 1073741824) / 2147483648
  toString (scaled / 10) ++ "." ++ toString (scaled % 10)

/-- Embedding of the uptime formatting in `collectDeviceContext`
(`device-context.ts` lines 46-51): whole days / hours / minutes, the day
segment omitted when the day count is zero. -/
def formatUptime (uptimeSec : Nat) : String :=
  let days := uptimeSec / 86400
  let hours := (uptimeSec % 86400) / 3600
  let mins := (uptimeSec % 3600) / 60
  if days > 0 then
    toString days ++ "d " ++ toString hours ++ "h " ++ toString mins ++ "m"
  else
    toString hours ++ "h " ++ toString mins ++ "m"

/-- Embedding of `s.replace(/\B(?=(\d{3})+(?!\d))/g, ' ')` on an all-digit
string `s`, processed left to right: a space is inserted before a character
exactly when it is not the first character (`\B` between two digits) and
the number of characters from it to the end of the string is a positive
multiple of three (the lookahead `(\d{3})+(?!\d)` succeeds).  `atStart`
records whether we are at the first character. -/
def groupGo : Bool → List Char → List Char
  | _, [] => []
  | atStart, c :: rest =>
      (if !atStart && (rest.length + 1) % 3 == 0 then [' '] else []) ++
        c :: groupGo false rest

/-- Thousands-separator formatting of a digit string, as done by
`readTeamViewerId` via `replace(/\B(?=(\d{3})+(?!\d))/g, ' ')`. -/
def groupDigits (s : String) : String :=
  String.mk (groupGo true s.data)

/-- Defined from the spec's words: chunk a reversed digit list into groups
of three, inserting a space after every complete group that is followed by
more digits. -/
def rchunk : List Char → List Char
  | a :: b :: c :: d :: rest => a :: b :: c :: ' ' :: rchunk (d :: rest)
  | l => l

/-- Defined from the spec's words: group the digits of `s` in groups of
three from the right, separated by single spaces. -/
def groupsOfThreeFromRight (s : String) : String :=
  String.mk ((rchunk s.data.reverse).reverse)

/-- Match a literal (case-sensitive) at the head of the input, returning the
remaining input. -/
def litAt : List Char → List Char → Option (List Char)
  | [], l => some l
  | _ :: _, [] => none
  | a :: lit, c :: l => if a == c then litAt lit l else none

/-- Match a literal case-insensitively (regex `/i` flag) at the head of the
input, returning the remaining input. -/
def litAtCI : List Char → List Char → Option (List Char)
  | [], l => some l
  | _ :: _, [] => none
  | a :: lit, c :: l => if a.toLower == c.toLower then litAtCI lit l else none

/-- Match `\s+` followed by a token starting with a non-whitespace character:
the maximal whitespace run (at least one character) is consumed; no
backtracking can help because `\s` cannot match the token's first
character. -/
def wsPlus (l : List Char) : Option (List Char) :=
  match l with
  | [] => none
  | c :: _ => if isJsWs c then some (l.dropWhile isJsWs) else none

/-- Consume `\s*` before a token starting with a non-whitespace character. -/
def wsStar (l : List Char) : List Char :=
  l.dropWhile isJsWs

/-- Greedy capture for `(.+)`: the maximal run of non-line-terminator
characters from the current position. -/
def dotRun (l : List Char) : List Char :=
  l.takeWhile (fun c => !isLineTerm c)

/-- Match `\s*(.+)` (with `minWs = 0`) or `\s+(.+)` (with `minWs = 1`) at
the current position, returning capture group 1.  The greedy `\s*` prefers
the longest whitespace run but backtracks until `(.+)` can match at least
one non-line-terminator character. -/
def dotPlusTail (minWs : Nat) (l : List Char) : Option (List Char) :=
  let r := (l.takeWhile isJsWs).length
  let ok : Nat → Bool := fun k =>
    decide (minWs ≤ k) &&
      (match l.drop k with
       | [] => false
       | c :: _ => !isLineTerm c)
  ((List.range (r + 1)).reverse.find? ok).map (fun k => dotRun (l.drop k))

/-- Match a maximal nonempty run of characters satisfying `p` (`(\d+)` or
`([0-9a-fA-F]+)` at the end of a pattern), returning the run. -/
def runPlus (p : Char → Bool) (l : List Char) : Option (List Char) :=
  let run := l.takeWhile p
  if run.isEmpty then none else some run

/-- Try a position-wise matcher at every suffix, left to right: JavaScript's
leftmost-match rule for `String.prototype.match`. -/
def scanFirst (f : List Char → Option α) : List Char → Option α
  | [] => f []
  | c :: rest =>
      match f (c :: rest) with
      | some v => some v
      | none => scanFirst f rest

/-- Match `name\s+REG_DWORD\s+0x([0-9a-fA-F]+)` at the current position,
returning the hex digit group. -/
def regDwordAt (name : List Char) (l : List Char) : Option (List Char) :=
  (litAt name l).bind wsPlus
    |>.bind (litAt "REG_DWORD".data)
    |>.bind wsPlus
    |>.bind (litAt "0x".data)
    |>.bind (runPlus isHex)

/-- Match `name\s+REG_SZ\s+(\d+)` at the current position, returning the
decimal digit group. -/
def regSzNumAt (name : List Char) (l : List Char) : Option (List Char) :=
  (litAt name l).bind wsPlus
    |>.bind (litAt "REG_SZ".data)
    |>.bind wsPlus
    |>.bind (runPlus isDec)

/-- Match `Version\s+REG_SZ\s+(.+)` at the current position, returning the
free-form capture group. -/
def regSzStrAt (name : List Char) (l : List Char) : Option (List Char) :=
  (litAt name l).bind wsPlus
    |>.bind (litAt "REG_SZ".data)
    |>.bind (dotPlusTail 1)

/-- Tail of the `/Serial Number.*?:\s*(.+)/i` pattern after the literal: the
lazy `.*?` walks forward to each candidate `:` in turn (never across a line
terminator), and at each colon the `\s*(.+)` tail is attempted; on failure
the walk resumes past that colon. -/
def lazyColonTail : List Char → Option (List Char)
  | [] => none
  | c :: rest =>
      if c == ':' then
        match dotPlusTail 0 rest with
        | some g => some g
        | none => lazyColonTail rest
      else if isLineTerm c then none
      else lazyColonTail rest

/-- Match `Serial Number.*?:\s*(.+)` case-insensitively at the current
position. -/
def serialNumberAt (l : List Char) : Option (List Char) :=
  (litAtCI "Serial Number".data l).bind lazyColonTail

/-- Match `lit:\s*(.+)` case-insensitively at the current position (used for
`Model Name:` and `Chip:`). -/
def labelTailAt (lit : List Char) (l : List Char) : Option (List Char) :=
  (litAtCI lit l).bind (dotPlusTail 0)

/-- Match `"device_id"\s*:\s*(\d+)` at the current position. -/
def deviceIdJsonAt (l : List Char) : Option (List Char) :=
  (litAt "\"device_id\"".data l).map wsStar
    |>.bind (litAt ":".data)
    |>.map wsStar
    |>.bind (runPlus isDec)

/-- Match `\[int32\]\s*ClientID\s*=\s*(\d+)` at the current position. -/
def int32ClientIdAt (l : List Char) : Option (List Char) :=
  (litAt "[int32]".data l).map wsStar
    |>.bind (litAt "ClientID".data)
    |>.map wsStar
    |>.bind (litAt "=".data)
    |>.map wsStar
    |>.bind (runPlus isDec)

/-- One entry of `os.networkInterfaces()` (the fields read by the code). -/
structure NetIface where
  address : String
  family : String
  internal : Bool
  mac : String
deriving DecidableEq

/-- The result record of `collectDeviceContext` (`device-context.ts`
lines 14-35). -/
structure DeviceContext where
  computerName : String
  loggedInUser : String
  osVersion : String
  osPlatform : String
  ipAddress : String
  macAddress : Option String
  domain : Option String
  cpu : String
  arch : String
  totalMemoryGB : String
  freeMemoryGB : String
  diskTotal : Option String
  diskFree : Option String
  serialNumber : Option String
  manufacturer : Option String
  model : Option String
  uptimeFormatted : String
  ninjaDeviceId : Option Nat
  teamviewerId : Option String
  teamviewerVersion : Option String
deriving DecidableEq

/-- Predicate of the inner loop of `getPrimaryIpAddress`: an IPv4,
non-internal interface entry. -/
def ipPick (i : NetIface) : Bool :=
  i.family == "IPv4" && !i.internal

/-- Predicate of the inner loop of `getPrimaryMacAddress`: additionally the
MAC is truthy (non-empty) and not the all-zero placeholder. -/
def macPick (i : NetIface) : Bool :=
  ipPick i && i.mac != "" && i.mac != "00:00:00:00:00:00"

/-- Embedding of `getPrimaryIpAddress` (`device-context.ts` lines 83-95):
the interface map is the `Object.keys`-ordered list of
(name, possibly-undefined entry list) pairs; the nested loops return the
first qualifying entry's address, falling back to the loopback literal. -/
def getPrimaryIpAddress : List (String × Option (List NetIface)) → String
  | [] => "127.0.0.1"
  | (_, none) :: rest => getPrimaryIpAddress rest
  | (_, some ifl) :: rest =>
      match ifl.find? ipPick with
      | some i => i.address
      | none => getPrimaryIpAddress rest

/-- Embedding of `getPrimaryMacAddress` (`device-context.ts` lines
100-112). -/
def getPrimaryMacAddress : List (String × Option (List NetIface)) → Option String
  | [] => none
  | (_, none) :: rest => getPrimaryMacAddress rest
  | (_, some ifl) :: rest =>
      match ifl.find? macPick with
      | some i => some (jsToUpperCase i.mac)
      | none => getPrimaryMacAddress rest

/-- Embedding of `getOsVersionFriendly` (`device-context.ts` lines
117-134); `swVers` is the outcome of `execSync('sw_vers -productVersion')`. -/
def getOsVersionFriendly (platform release osType : String)
    (swVers : Except Unit String) : String :=
  if platform == "darwin" then
    match swVers with
    | .ok r => "macOS " ++ jsTrim r
    | .error _ => "macOS (" ++ release ++ ")"
  else if platform == "win32" then "Windows " ++ release
  else osType ++ " " ++ release

/-- The non-empty lines of a command output, as produced by
`result.trim().split('\n').filter(l => l.trim())`, with the last line split
on commas; `none` models the `TypeError` thrown by indexing past an empty
array (`lines[lines.length - 1].split` on `undefined`). -/
def winCsvLast (s : String) : Option (List String) :=
  ((((jsTrim s).splitOn "\n").filter (fun l => jsTrim l != "")).getLast?).map
    (fun last => last.splitOn ",")

/-- Embedding of the JavaScript coercion `t || null` for a string `t`. -/
def orNull (s : String) : Option String :=
  if s == "" then none else some s

/-- Split a trimmed string on `/\s+/` as `String.prototype.split` does:
the maximal non-whitespace runs (on input with no leading or trailing
whitespace, which is what `trim` guarantees at the call site). -/
def splitFieldsGo (l : List Char) : List (List Char) :=
  match l with
  | [] => []
  | c :: rest =>
      if isJsWs c then splitFieldsGo (rest.dropWhile isJsWs)
      else ((c :: rest).takeWhile (fun a => !isJsWs a)) ::
        splitFieldsGo ((rest.dropWhile (fun a => !isJsWs a)).dropWhile isJsWs)
termination_by l.length
decreasing_by
  all_goals
    (have key : ∀ (p : Char → Bool) (xs : List Char),
        (xs.dropWhile p).length ≤ xs.length := by
      intro p xs
      induction xs with
      | nil => simp [List.dropWhile]
      | cons a as ih =>
          by_cases h : p a <;> simp [List.dropWhile, h] <;> omega
     simp only [List.length_cons]
     exact Nat.lt_succ_of_le (by
       first
       | exact key _ _
       | exact Nat.le_trans (key _ _) (key _ _)))

/-- Fields of `result.trim().split(/\s+/)`. -/
def splitFields (s : String) : List (List Char) :=
  let t := trimChars s.data
  if t.isEmpty then [[]] else splitFieldsGo t

/-- Embedding of `getDiskInfo` (`device-context.ts` lines 139-177); `e` is
the outcome of the platform-specific disk-usage utility invocation
(`wmic logicaldisk` on win32, `df -k /` elsewhere). -/
def getDiskInfo (platform : String) (e : Except Unit String) :
    Option String × Option String :=
  match e with
  | .error _ => (none, none)
  | .ok s =>
    if platform == "win32" then
      match winCsvLast s with
      | none => (none, none)
      | some parts =>
        match parts with
        | _ :: p1 :: p2 :: _ =>
          match jsParseInt p1, jsParseInt p2 with
          | some free, some total => (some (gbString total), some (gbString free))
          | _, _ => (none, none)
        | _ => (none, none)
    else
      match splitFields s with
      | _ :: p1 :: _ :: p3 :: _ =>
        match jsParseInt (String.mk p1), jsParseInt (String.mk p3) with
        | some tBlocks, some fBlocks =>
            (some (gbString (tBlocks * 1024)), some (gbString (fBlocks * 1024)))
        | _, _ => (none, none)
      | _ => (none, none)

/-- The serial / manufacturer / model triple of `getHardwareInfo`. -/
structure HwInfo where
  serialNumber : Option String
  manufacturer : Option String
  model : Option String
deriving DecidableEq

/-- Embedding of `getHardwareInfo` (`device-context.ts` lines 182-216).
On win32 the two `wmic` queries run in sequence inside one `try`: a throw
during the first (including indexing an empty line list) aborts with all
fields null, a throw during the second keeps the already-assigned serial.
On darwin the three regexes are extracted from the `system_profiler`
output; the manufacturer defaults to "Apple" whenever that output was
obtained. -/
def getHardwareInfo (platform : String)
    (serialExec productExec profilerExec : Except Unit String) : HwInfo :=
  if platform == "win32" then
    match serialExec with
    | .error _ => ⟨none, none, none⟩
    | .ok s =>
      match winCsvLast s with
      | none => ⟨none, none, none⟩
      | some parts =>
        let sn : Option String :=
          match parts with
          | _ :: p1 :: _ => orNull (jsTrim p1)
          | _ => none
        match productExec with
        | .error _ => ⟨sn, none, none⟩
        | .ok ps =>
          match winCsvLast ps with
          | none => ⟨sn, none, none⟩
          | some pparts =>
            match pparts with
            | _ :: q1 :: q2 :: _ => ⟨sn, orNull (jsTrim q2), orNull (jsTrim q1)⟩
            | _ => ⟨sn, none, none⟩
  else if platform == "darwin" then
    match profilerExec with
    | .error _ => ⟨none, none, none⟩
    | .ok prof =>
      ⟨(scanFirst serialNumberAt prof.data).map
          (fun g => String.mk (trimChars g)),
       (match scanFirst (labelTailAt "Chip:".data) prof.data with
        | some g => some ("Apple " ++ String.mk (trimChars g))
        | none => some "Apple"),
       (scanFirst (labelTailAt "Model Name:".data) prof.data).map
          (fun g => String.mk (trimChars g))⟩
  else ⟨none, none, none⟩

/-- Embedding of `getDomain` (`device-context.ts` lines 221-229); `e` is
the outcome of `execSync('echo %USERDOMAIN%')`. -/
def getDomain (platform : String) (e : Except Unit String) : Option String :=
  if platform != "win32" then none
  else
    match e with
    | .error _ => none
    | .ok s =>
      let r := jsTrim s
      if r != "%USERDOMAIN%" then some r else none

/-- Ordered-candidate lookup shared by the remote-agent probes: each list
element is the outcome of reading one candidate location; a throw or a
parse miss moves on to the next candidate, the first parsed value wins. -/
def firstHit (f : String → Option α) : List (Except Unit String) → Option α
  | [] => none
  | .error _ :: rest => firstHit f rest
  | .ok s :: rest =>
      match f s with
      | some v => some v
      | none => firstHit f rest

/-- Embedding of `readNinjaDeviceId` (`device-context.ts` lines 234-262):
on win32 the `reg query` output is matched against the `REG_DWORD` (hex)
pattern first, then the `REG_SZ` (decimal string) pattern; on darwin an
ordered list of config files is scanned for a `"device_id": <digits>`
fragment. -/
def readNinjaDeviceId (platform : String) (regExec : Except Unit String)
    (confReads : List (Except Unit String)) : Option Nat :=
  if platform == "win32" then
    match regExec with
    | .error _ => none
    | .ok s =>
      match scanFirst (regDwordAt "DeviceId".data) s.data with
      | some hex => some (hexVal hex)
      | none =>
        match scanFirst (regSzNumAt "DeviceId".data) s.data with
        | some d => some (decVal d)
        | none => none
  else if platform == "darwin" then
    firstHit (fun s => (scanFirst deviceIdJsonAt s.data).map decVal) confReads
  else none

/-- Embedding of `readTeamViewerId` (`device-context.ts` lines 267-312):
win32 tries the two registry paths for a `ClientID` `REG_DWORD` and formats
the decimal value with thousands-group spaces; darwin tries two
`defaults read` locations (accepting a trimmed all-digit result) and then
the legacy `global.conf` pattern. -/
def readTeamViewerId (platform : String) (regExecs : List (Except Unit String))
    (defaultsReads : List (Except Unit String))
    (globalConf : Except Unit String) : Option String :=
  if platform == "win32" then
    firstHit (fun s =>
      (scanFirst (regDwordAt "ClientID".data) s.data).map
        (fun hex => groupDigits (toString (hexVal hex)))) regExecs
  else if platform == "darwin" then
    match firstHit (fun s =>
        let id := jsTrim s
        if id != "" && id.data.all isDec then some (groupDigits id) else none)
        defaultsReads with
    | some v => some v
    | none =>
      match globalConf with
      | .error _ => none
      | .ok conf =>
          (scanFirst int32ClientIdAt conf.data).map
            (fun d => groupDigits (String.mk d))
  else none

/-- Embedding of `readTeamViewerVersion` (`device-context.ts` lines
317-343). -/
def readTeamViewerVersion (platform : String)
    (regExecs : List (Except Unit String))
    (defaultsRead : Except Unit String) : Option String :=
  if platform == "win32" then
    firstHit (fun s =>
      (scanFirst (regSzStrAt "Version".data) s.data).map
        (fun g => String.mk (trimChars g))) regExecs
  else if platform == "darwin" then
    match defaultsRead with
    | .error _ => none
    | .ok s =>
      let t := jsTrim s
      if t != "" then some t else none
  else none

/-- The machine state and probe outcomes `collectDeviceContext` reads: the
plain `os` module values, the outcome of every child-process / file read
the probes can perform, and the outcome of `os.userInfo()`.  The
`username` field is the result of `os.userInfo().username`: unlike the
other `os` reads used here, `os.userInfo()` is documented to throw a
`SystemError` when the process uid has no username/home-directory entry,
and the source does not wrap the call in any try/catch. -/
structure Env where
  platform : String
  hostname : String
  username : Except Unit String
  release : String
  osType : String
  arch : String
  cpus : List String
  totalmem : Nat
  freemem : Nat
  uptime : Nat
  interfaces : List (String × Option (List NetIface))
  swVers : Except Unit String
  diskExec : Except Unit String
  hwSerialExec : Except Unit String
  hwProductExec : Except Unit String
  profilerExec : Except Unit String
  domainExec : Except Unit String
  ninjaRegExec : Except Unit String
  ninjaConfReads : List (Except Unit String)
  tvClientRegExecs : List (Except Unit String)
  tvDefaultsReads : List (Except Unit String)
  tvGlobalConf : Except Unit String
  tvVersionRegExecs : List (Except Unit String)
  tvVersionDefaults : Except Unit String

/-- The record `collectDeviceContext` builds once the `os.userInfo()` read
has succeeded (the object literal of `device-context.ts` lines 56-77). -/
def collectedRecord (env : Env) (username : String) : DeviceContext where
  computerName := env.hostname
  loggedInUser := username
  osVersion := getOsVersionFriendly env.platform env.release env.osType env.swVers
  osPlatform := env.platform
  ipAddress := getPrimaryIpAddress env.interfaces
  macAddress := getPrimaryMacAddress env.interfaces
  domain := getDomain env.platform env.domainExec
  cpu := match env.cpus with
         | [] => "Unknown"
         | m :: _ => jsTrim m
  arch := env.arch
  totalMemoryGB := toFixed1GB env.totalmem
  freeMemoryGB := toFixed1GB env.freemem
  diskTotal := (getDiskInfo env.platform env.diskExec).1
  diskFree := (getDiskInfo env.platform env.diskExec).2
  serialNumber := (getHardwareInfo env.platform env.hwSerialExec
    env.hwProductExec env.profilerExec).serialNumber
  manufacturer := (getHardwareInfo env.platform env.hwSerialExec
    env.hwProductExec env.profilerExec).manufacturer
  model := (getHardwareInfo env.platform env.hwSerialExec
    env.hwProductExec env.profilerExec).model
  uptimeFormatted := formatUptime env.uptime
  ninjaDeviceId := readNinjaDeviceId env.platform env.ninjaRegExec env.ninjaConfReads
  teamviewerId := readTeamViewerId env.platform env.tvClientRegExecs
    env.tvDefaultsReads env.tvGlobalConf
  teamviewerVersion := readTeamViewerVersion env.platform env.tvVersionRegExecs
    env.tvVersionDefaults

/-- Embedding of `collectDeviceContext` (`device-context.ts` lines 40-78).
Every probe failure is caught inside the respective probe — with one
exception: the `loggedInUser: os.userInfo().username` read (line 58) is
not under any try/catch, so when `os.userInfo()` throws, the exception
propagates out of `collectDeviceContext` and no record is produced.  The
function therefore returns `Except`: `.error` exactly when the username
read throws, `.ok` with the fully constructed record otherwise. -/
def collectDeviceContext (env : Env) : Except Unit DeviceContext :=
  match env.username with
  | .error e => .error e
  | .ok username => .ok (collectedRecord env username)

/-- The interface entries in the order the two nested loops of
`getPrimaryIpAddress` / `getPrimaryMacAddress` visit them: `Object.keys`
order, skipping entries whose list is `undefined`. -/
def flatIfaces (m : List (String × Option (List NetIface))) : List NetIface :=
  m.flatMap (fun e => e.2.getD [])

/-- A thrown JavaScript value: `some m` is an `Error` with message `m`,
`none` a non-`Error` throw (mapped to "Unknown error" by the handler). -/
def jsErrorMessage : Option String → String
  | some m => m
  | none => "Unknown error"

/-- The `data` value produced by `response.json()` as far as the handler
inspects it: its `message` property when that is a string, and the rest of
the parsed document (carried through untouched on success). -/
structure JsonValue where
  message : Option String
  payload : String
deriving DecidableEq

/-- An HTTP response as the handler consumes it: the `ok` flag and the
outcome of `response.json()` (which rejects on an unparsable body). -/
structure FetchResponse where
  ok : Bool
  json : Except (Option String) JsonValue

/-- The value returned to the renderer by the `submit-ticket` handler. -/
structure SubmitResult where
  success : Bool
  data : Option JsonValue
  error : Option String
deriving DecidableEq

/-- Embedding of `data.message || 'Submission failed'`: the server message
when present and truthy (non-empty), else the generic fallback. -/
def messageOrDefault (d : JsonValue) : String :=
  match d.message with
  | some m => if m == "" then "Submission failed" else m
  | none => "Submission failed"

/-- Embedding of the `submit-ticket` IPC handler (`i18n.ts` lines
1533-1552).  `fetched` is the outcome of the `fetch` call: `.error` means
no HTTP response was received.  Note the handler awaits `response.json()`
before checking `response.ok`, so an unparsable body lands in the `catch`
regardless of the HTTP status. -/
def submitTicket (fetched : Except (Option String) FetchResponse) : SubmitResult :=
  match fetched with
  | .error e => ⟨false, none, some (jsErrorMessage e)⟩
  | .ok resp =>
    match resp.json with
    | .error e => ⟨false, none, some (jsErrorMessage e)⟩
    | .ok data =>
      if resp.ok then ⟨true, some data, none⟩
      else ⟨false, none, some (messageOrDefault data)⟩

/-- A Windows machine state in which every probe fails except the domain
probe, whose `echo %USERDOMAIN%` output is pure whitespace (as happens
when the variable is set to a blank). -/
def envDomainBlank : Env :=
  { platform := "win32"
    hostname := "DESKTOP-01"
    username := .ok "user"
    release := "10.0.19045"
    osType := "Windows_NT"
    arch := "x64"
    cpus := []
    totalmem := 0
    freemem := 0
    uptime := 0
    interfaces := []
    swVers := .error ()
    diskExec := .error ()
    hwSerialExec := .error ()
    hwProductExec := .error ()
    profilerExec := .error ()
    domainExec := .ok " \r\n"
    ninjaRegExec := .error ()
    ninjaConfReads := []
    tvClientRegExecs := []
    tvDefaultsReads := []
    tvGlobalConf := .error ()
    tvVersionRegExecs := []
    tvVersionDefaults := .error () }

/-- The machine state in which every fallible probe input fails: no CPU
entries, no network interfaces, and every child-process invocation / file
read throws. -/
def allProbesFail (env : Env) : Prop :=
  env.cpus = [] ∧
  env.interfaces = [] ∧
  env.swVers = .error () ∧
  env.diskExec = .error () ∧
  env.hwSerialExec = .error () ∧
  env.hwProductExec = .error () ∧
  env.profilerExec = .error () ∧
  env.domainExec = .error () ∧
  env.ninjaRegExec = .error () ∧
  (∀ r ∈ env.ninjaConfReads, r = .error ()) ∧
  (∀ r ∈ env.tvClientRegExecs, r = .error ()) ∧
  (∀ r ∈ env.tvDefaultsReads, r = .error ()) ∧
  env.tvGlobalConf = .error () ∧
  (∀ r ∈ env.tvVersionRegExecs, r = .error ()) ∧
  env.tvVersionDefaults = .error ()

/-- A machine state with every probe failing. -/
def envAllFail : Env :=
  { envDomainBlank with domainExec := .error () }

/-! ## Helper lemmas -/

theorem mk_eq_empty_iff (l : List Char) : String.mk l = "" ↔ l = [] := by
  constructor
  · intro h
    have := congrArg String.data h
    simpa using this
  · intro h
    simp [h]

theorem append_ne_empty_of_right (s t : String) (h : t ≠ "") : s ++ t ≠ "" := by
  intro hc
  apply h
  have hd := congrArg String.data hc
  rw [String.data_append] at hd
  have : t.data = [] := (List.append_eq_nil.mp hd).2
  cases t
  simpa [mk_eq_empty_iff] using this

theorem toDigitsCore_length_ge (b : Nat) :
    ∀ (f n : Nat) (ds : List Char), ds.length ≤ (Nat.toDigitsCore b f n ds).length := by
  intro f
  induction f with
  | zero => intro n ds; simp [Nat.toDigitsCore]
  | succ f ih =>
    intro n ds
    simp only [Nat.toDigitsCore]
    split
    · simp
    · exact Nat.le_trans (by simp) (ih (n / b) (Nat.digitChar (n % b) :: ds))

theorem natRepr_ne_empty (n : Nat) : Nat.repr n ≠ "" := by
  unfold Nat.repr Nat.toDigits
  rw [List.asString, Ne, mk_eq_empty_iff]
  intro h
  have h1 := toDigitsCore_length_ge 10 n (n / 10) [Nat.digitChar (n % 10)]
  simp only [Nat.toDigitsCore] at h
  revert h
  split
  · simp
  · intro h
    rw [h] at h1
    simp at h1

theorem natToString_ne_empty (n : Nat) : toString n ≠ "" :=
  natRepr_ne_empty n

theorem groupGo_ne_nil (b : Bool) (c : Char) (rest : List Char) :
    groupGo b (c :: rest) ≠ [] := by
  simp only [groupGo]
  split <;> simp

theorem groupDigits_ne_empty (s : String) (h : s ≠ "") : groupDigits s ≠ "" := by
  unfold groupDigits
  rw [Ne, mk_eq_empty_iff]
  cases hs : s.data with
  | nil =>
      exact absurd (by cases s; simpa [mk_eq_empty_iff] using hs) h
  | cons c rest => exact groupGo_ne_nil true c rest

theorem orNull_ne_some_empty (s : String) : orNull s ≠ some "" := by
  unfold orNull
  split
  · simp
  · rename_i h
    simp only [ne_eq, Option.some.injEq]
    intro hc
    subst hc
    simp at h

theorem gbString_ne_empty (v : Int) : gbString v ≠ "" :=
  append_ne_empty_of_right _ _ (by decide)

theorem runPlus_some_ne_nil (p : Char → Bool) (l r : List Char)
    (h : runPlus p l = some r) : r ≠ [] := by
  unfold runPlus at h
  by_cases he : (l.takeWhile p).isEmpty <;> simp [he] at h
  subst h
  simpa [List.isEmpty_iff] using he

theorem scanFirst_some {α : Type} (f : List Char → Option α) (P : α → Prop)
    (hf : ∀ suf v, f suf = some v → P v) :
    ∀ (l : List Char) (v : α), scanFirst f l = some v → P v := by
  intro l
  induction l with
  | nil => intro v h; exact hf [] v (by simpa [scanFirst] using h)
  | cons c rest ih =>
    intro v h
    rw [scanFirst] at h
    revert h
    split
    · intro h
      cases h
      exact hf _ _ (by assumption)
    · exact ih v

theorem firstHit_some {α : Type} (f : String → Option α) (P : α → Prop)
    (hf : ∀ s v, f s = some v → P v) :
    ∀ (xs : List (Except Unit String)) (v : α), firstHit f xs = some v → P v := by
  intro xs
  induction xs with
  | nil => intro v h; simp [firstHit] at h
  | cons x rest ih =>
    intro v h
    cases x with
    | error e => exact ih v (by simpa [firstHit] using h)
    | ok s =>
      rw [firstHit] at h
      revert h
      split
      · intro h
        cases h
        exact hf _ _ (by assumption)
      · exact ih v

theorem firstHit_all_error {α : Type} (f : String → Option α) :
    ∀ (xs : List (Except Unit String)), (∀ r ∈ xs, r = .error ()) →
      firstHit f xs = none := by
  intro xs
  induction xs with
  | nil => intro _; rfl
  | cons x rest ih =>
    intro h
    have hx := h x (by simp)
    subst hx
    exact ih (fun r hr => h r (by simp [hr]))

/-- The nested loops of `getPrimaryIpAddress` compute the first match over
the flattened, enumeration-ordered entry list. -/
theorem getPrimaryIpAddress_eq_find (m : List (String × Option (List NetIface))) :
    getPrimaryIpAddress m =
      (match (flatIfaces m).find? ipPick with
       | some i => i.address
       | none => "127.0.0.1") := by
  induction m with
  | nil => rfl
  | cons x rest ih =>
    obtain ⟨name, o⟩ := x
    cases o with
    | none => simpa [getPrimaryIpAddress, flatIfaces] using ih
    | some ifl =>
      rw [getPrimaryIpAddress]
      rw [show flatIfaces ((name, some ifl) :: rest) = ifl ++ flatIfaces rest by
        simp [flatIfaces]]
      rw [List.find?_append]
      cases h : ifl.find? ipPick with
      | some i => simp
      | none => simpa using ih

/-- The nested loops of `getPrimaryMacAddress` compute the first match over
the flattened, enumeration-ordered entry list, upper-casing its MAC. -/
theorem getPrimaryMacAddress_eq_find (m : List (String × Option (List NetIface))) :
    getPrimaryMacAddress m =
      ((flatIfaces m).find? macPick).map (fun i => jsToUpperCase i.mac) := by
  induction m with
  | nil => rfl
  | cons x rest ih =>
    obtain ⟨name, o⟩ := x
    cases o with
    | none => simpa [getPrimaryMacAddress, flatIfaces] using ih
    | some ifl =>
      rw [getPrimaryMacAddress]
      rw [show flatIfaces ((name, some ifl) :: rest) = ifl ++ flatIfaces rest by
        simp [flatIfaces]]
      rw [List.find?_append]
      cases h : ifl.find? macPick with
      | some i => simp
      | none => simpa using ih

/-! ## Claim C4 -/

/-- C4: for every interface map, `getPrimaryIpAddress` returns the address
of the first non-internal IPv4 interface entry when one exists and the
literal fallback "127.0.0.1" when none exists; the result is non-empty
(the hypothesis of the last conjunct — every reported address is a
non-empty string — is the operating-system API's guarantee about the
entries of `os.networkInterfaces()`). -/
theorem C4_primary_ip_selection (m : List (String × Option (List NetIface))) :
    ((flatIfaces m).find? ipPick = none → getPrimaryIpAddress m = "127.0.0.1") ∧
    (∀ i, (flatIfaces m).find? ipPick = some i →
      getPrimaryIpAddress m = i.address) ∧
    ((∀ i ∈ flatIfaces m, i.address ≠ "") → getPrimaryIpAddress m ≠ "") := by
  refine ⟨?_, ?_, ?_⟩
  · intro h
    rw [getPrimaryIpAddress_eq_find, h]
  · intro i h
    rw [getPrimaryIpAddress_eq_find, h]
  · intro h
    rw [getPrimaryIpAddress_eq_find]
    cases hf : (flatIfaces m).find? ipPick with
    | none => decide
    | some i => exact h i (List.mem_of_find?_eq_some hf)

/-- Witness for C4 at concrete interface maps: a map with a qualifying
interface yields its address, a loopback-only map yields the fallback. -/
theorem C4_primary_ip_selection_witness :
    getPrimaryIpAddress
        [("eth0", some [⟨"192.168.1.7", "IPv4", false, "aa:bb:cc:dd:ee:01"⟩])] =
      "192.168.1.7" ∧
    getPrimaryIpAddress
        [("lo", some [⟨"127.0.0.1", "IPv4", true, "00:00:00:00:00:00"⟩])] =
      "127.0.0.1" :=
  ⟨(C4_primary_ip_selection _).2.1
      ⟨"192.168.1.7", "IPv4", false, "aa:bb:cc:dd:ee:01"⟩ (by decide),
   (C4_primary_ip_selection _).1 (by decide)⟩

/-! ## Claim C5 -/

/-- C5: if every interface entry is internal or reports the all-zero
placeholder MAC, `getPrimaryMacAddress` returns null; when a qualifying
entry exists (IPv4, non-internal, truthy MAC distinct from the
placeholder), it returns the first such entry's MAC address (upper-cased,
as the code normalises it). -/
theorem C5_primary_mac_selection (m : List (String × Option (List NetIface))) :
    ((∀ i ∈ flatIfaces m, i.internal = true ∨ i.mac = "00:00:00:00:00:00") →
      getPrimaryMacAddress m = none) ∧
    (∀ i, (flatIfaces m).find? macPick = some i →
      getPrimaryMacAddress m = some (jsToUpperCase i.mac)) := by
  constructor
  · intro h
    rw [getPrimaryMacAddress_eq_find]
    cases hf : (flatIfaces m).find? macPick with
    | none => rfl
    | some i =>
      exfalso
      have hpick := List.find?_some hf
      have hmem := List.mem_of_find?_eq_some hf
      rcases h i hmem with hint | hzero
      · simp [macPick, ipPick, hint] at hpick
      · simp [macPick, ipPick, hzero] at hpick
  · intro i h
    rw [getPrimaryMacAddress_eq_find, h]
    rfl

/-- Witness for C5 at concrete interface maps. -/
theorem C5_primary_mac_selection_witness :
    getPrimaryMacAddress
        [("lo", some [⟨"127.0.0.1", "IPv4", true, "00:00:00:00:00:00"⟩]),
         ("veth0", some [⟨"10.0.0.2", "IPv4", false, "00:00:00:00:00:00"⟩])] =
      none ∧
    getPrimaryMacAddress
        [("eth0", some [⟨"192.168.1.7", "IPv4", false, "aa:bb:cc:dd:ee:01"⟩])] =
      some "AA:BB:CC:DD:EE:01" := by
  constructor
  · exact (C5_primary_mac_selection _).1 (by decide)
  · have h := (C5_primary_mac_selection
      [("eth0", some [⟨"192.168.1.7", "IPv4", false, "aa:bb:cc:dd:ee:01"⟩])]).2
      ⟨"192.168.1.7", "IPv4", false, "aa:bb:cc:dd:ee:01"⟩ (by decide)
    rw [h]
    decide

/-! ## Claim C10 -/

/-- C10 counterexample: an interface map whose single entry is
non-internal and IPv4 but literally carries the loopback address.
`getPrimaryMacAddress` is non-null, yet `getPrimaryIpAddress` returns the
string "127.0.0.1" — equal to the fallback literal — so the claim's
"does not return the fallback \"127.0.0.1\"" is false as a statement about
the returned string. -/
theorem C10_counterexample :
    getPrimaryMacAddress
        [("eth0", some [⟨"127.0.0.1", "IPv4", false, "aa:bb:cc:dd:ee:01"⟩])] ≠
      none ∧
    getPrimaryIpAddress
        [("eth0", some [⟨"127.0.0.1", "IPv4", false, "aa:bb:cc:dd:ee:01"⟩])] =
      "127.0.0.1" := by
  constructor
  · decide
  · rfl

/-- C10 amended: a non-null `getPrimaryMacAddress` implies a non-internal
IPv4 entry exists, so `getPrimaryIpAddress` returns the first such entry's
own address — the fallback branch is not taken, although the returned
string can still coincide with "127.0.0.1" if an entry literally reports
that address; and the returned MAC is the found entry's MAC upper-cased. -/
theorem C10_mac_nonnull_implies_interface_ip
    (m : List (String × Option (List NetIface)))
    (h : getPrimaryMacAddress m ≠ none) :
    (∃ i, (flatIfaces m).find? ipPick = some i ∧
      getPrimaryIpAddress m = i.address) ∧
    (∃ j, (flatIfaces m).find? macPick = some j ∧
      getPrimaryMacAddress m = some (jsToUpperCase j.mac)) := by
  rw [getPrimaryMacAddress_eq_find] at h
  obtain ⟨j, hj⟩ : ∃ j, (flatIfaces m).find? macPick = some j := by
    cases hf : (flatIfaces m).find? macPick with
    | none => rw [hf] at h; simp at h
    | some j => exact ⟨j, rfl⟩
  have hipj : ipPick j = true := by
    have := List.find?_some hj
    simp only [macPick, Bool.and_eq_true] at this
    exact this.1.1
  obtain ⟨i, hi⟩ : ∃ i, (flatIfaces m).find? ipPick = some i := by
    cases hf : (flatIfaces m).find? ipPick with
    | none =>
      exfalso
      have := List.find?_eq_none.mp hf j (List.mem_of_find?_eq_some hj)
      exact this hipj
    | some i => exact ⟨i, rfl⟩
  refine ⟨⟨i, hi, ?_⟩, ⟨j, hj, ?_⟩⟩
  · rw [getPrimaryIpAddress_eq_find, hi]
  · rw [getPrimaryMacAddress_eq_find, hj]
    rfl

/-- Witness for the amended C10 at a concrete interface map. -/
theorem C10_mac_nonnull_implies_interface_ip_witness :
    getPrimaryMacAddress
        [("eth0", some [⟨"192.168.1.7", "IPv4", false, "aa:bb:cc:dd:ee:01"⟩])] ≠
      none ∧
    ((∃ i, (flatIfaces
        [("eth0", some [⟨"192.168.1.7", "IPv4", false, "aa:bb:cc:dd:ee:01"⟩])]).find?
          ipPick = some i ∧
      getPrimaryIpAddress
        [("eth0", some [⟨"192.168.1.7", "IPv4", false, "aa:bb:cc:dd:ee:01"⟩])] =
        i.address) ∧
    (∃ j, (flatIfaces
        [("eth0", some [⟨"192.168.1.7", "IPv4", false, "aa:bb:cc:dd:ee:01"⟩])]).find?
          macPick = some j ∧
      getPrimaryMacAddress
        [("eth0", some [⟨"192.168.1.7", "IPv4", false, "aa:bb:cc:dd:ee:01"⟩])] =
        some (jsToUpperCase j.mac))) :=
  ⟨by decide, C10_mac_nonnull_implies_interface_ip _ (by decide)⟩

/-! ## Claim C6 -/

theorem getDiskInfo_shape (p : String) (e : Except Unit String) :
    getDiskInfo p e = (none, none) ∨
    ∃ v w, getDiskInfo p e = (some (gbString v), some (gbString w)) := by
  unfold getDiskInfo
  cases e with
  | error u => exact Or.inl rfl
  | ok s =>
    repeat' split
    all_goals
      first
      | exact Or.inl rfl
      | exact Or.inr ⟨_, _, rfl⟩

/-- C6: for every outcome of the disk-usage utility invocation,
`getDiskInfo` returns either both fields populated or the all-null pair;
a failed utility call yields the all-null pair, and the result never has
exactly one null component. -/
theorem C6_disk_pair_all_or_nothing (p : String) (e : Except Unit String) :
    getDiskInfo p (.error ()) = (none, none) ∧
    (getDiskInfo p e = (none, none) ∨
      ∃ t f, getDiskInfo p e = (some t, some f)) ∧
    ((getDiskInfo p e).1 = none ↔ (getDiskInfo p e).2 = none) := by
  refine ⟨rfl, ?_, ?_⟩
  · rcases getDiskInfo_shape p e with h | ⟨v, w, h⟩
    · exact Or.inl h
    · exact Or.inr ⟨_, _, h⟩
  · rcases getDiskInfo_shape p e with h | ⟨v, w, h⟩ <;> rw [h] <;> simp

/-! ## Claim C9 -/

/-- C9: the uptime formatter produces "Xd Yh Zm", omitting the day
component exactly when the whole-day count is zero; 90000 s formats as
"1d 1h 0m" and 3600 s as "1h 0m". -/
theorem C9_uptime_format (u : Nat) :
    formatUptime 90000 = "1d 1h 0m" ∧
    formatUptime 3600 = "1h 0m" ∧
    (u / 86400 = 0 → formatUptime u =
      toString ((u % 86400) / 3600) ++ "h " ++ toString ((u % 3600) / 60) ++ "m") ∧
    (0 < u / 86400 → formatUptime u =
      toString (u / 86400) ++ "d " ++ toString ((u % 86400) / 3600) ++ "h " ++
        toString ((u % 3600) / 60) ++ "m") := by
  refine ⟨by decide, by decide, ?_, ?_⟩
  · intro h
    unfold formatUptime
    simp [h]
  · intro h
    unfold formatUptime
    simp [h]

/-- Witness for C9: the day segment is present at 90000 s and absent at
3600 s. -/
theorem C9_uptime_format_witness :
    (0 : Nat) < 90000 / 86400 ∧
    formatUptime 90000 =
      toString (90000 / 86400) ++ "d " ++ toString ((90000 % 86400) / 3600) ++
        "h " ++ toString ((90000 % 3600) / 60) ++ "m" ∧
    (3600 : Nat) / 86400 = 0 ∧
    formatUptime 3600 =
      toString ((3600 % 86400) / 3600) ++ "h " ++ toString ((3600 % 3600) / 60) ++ "m" :=
  ⟨by decide, (C9_uptime_format 90000).2.2.2 (by decide), by decide,
    (C9_uptime_format 3600).2.2.1 (by decide)⟩

/-! ## Claim C2 -/

/-- C2 counterexample: an HTTP response is received with a success status
(`ok = true`) but its body is not valid JSON; `response.json()` rejects
before `response.ok` is consulted, so the handler returns success = false
with the parse error's message — refuting "if an HTTP response is received
with a success status, submit returns success=true carrying the server
data". -/
theorem C2_counterexample :
    submitTicket (.ok ⟨true, .error (some "Unexpected token < in JSON")⟩) =
      ⟨false, none, some "Unexpected token < in JSON"⟩ := rfl

/-- C2 amended: provided the response body parses as JSON, a success
status returns success=true with the data and a non-success status returns
success=false with the server message when present and non-empty, else the
generic "Submission failed"; a network-level failure (no response) — and
likewise an unparsable body — returns success=false with the thrown
error's message ("Unknown error" for a non-Error throw). -/
theorem C2_submit_result_cases :
    (∀ e, submitTicket (.error e) = ⟨false, none, some (jsErrorMessage e)⟩) ∧
    (∀ d, submitTicket (.ok ⟨true, .ok d⟩) = ⟨true, some d, none⟩) ∧
    (∀ d, submitTicket (.ok ⟨false, .ok d⟩) =
      ⟨false, none, some (messageOrDefault d)⟩) ∧
    (∀ b e, submitTicket (.ok ⟨b, .error e⟩) =
      ⟨false, none, some (jsErrorMessage e)⟩) ∧
    (∀ m p, messageOrDefault ⟨some m, p⟩ =
      if m == "" then "Submission failed" else m) ∧
    (∀ p, messageOrDefault ⟨none, p⟩ = "Submission failed") := by
  refine ⟨fun e => rfl, fun d => rfl, fun d => rfl, fun b e => ?_,
    fun m p => rfl, fun p => rfl⟩
  cases b <;> rfl

/-! ## Claim C7 -/

/-- C7: the device-management (NinjaOne) ID probe decodes a
`REG_DWORD` hex value (0x1a2b gives decimal 6699), decodes a `REG_SZ`
numeric string ("12345" gives 12345), and attempts the hex encoding first:
whenever the `REG_DWORD` pattern matches anywhere in the query output, the
result is its hex value, regardless of any `REG_SZ` match. -/
theorem C7_ninja_device_id :
    readNinjaDeviceId "win32"
        (.ok ("\r\nHKEY_LOCAL_MACHINE\\SOFTWARE\\NinjaRMM LLC\\NinjaRMMAgent\r\n" ++
          "    DeviceId    REG_DWORD    0x1a2b\r\n\r\n")) [] = some 6699 ∧
    readNinjaDeviceId "win32"
        (.ok ("\r\nHKEY_LOCAL_MACHINE\\SOFTWARE\\NinjaRMM LLC\\NinjaRMMAgent\r\n" ++
          "    DeviceId    REG_SZ    12345\r\n\r\n")) [] = some 12345 ∧
    (∀ (s : String) (hex : List Char),
      scanFirst (regDwordAt "DeviceId".data) s.data = some hex →
      readNinjaDeviceId "win32" (.ok s) [] = some (hexVal hex)) := by
  refine ⟨by decide, by decide, ?_⟩
  intro s hex h
  unfold readNinjaDeviceId
  rw [if_pos (by decide)]
  show (match scanFirst (regDwordAt "DeviceId".data) s.data with
        | some hex => some (hexVal hex)
        | none =>
          match scanFirst (regSzNumAt "DeviceId".data) s.data with
          | some d => some (decVal d)
          | none => none) = some (hexVal hex)
  rw [h]

/-- Witness for C7's precedence conjunct at an output containing both
encodings: the `REG_DWORD` value (0x10 = 16) wins over the earlier
`REG_SZ` value (99). -/
theorem C7_ninja_device_id_witness :
    scanFirst (regDwordAt "DeviceId".data)
      ("DeviceId    REG_SZ    99\r\nDeviceId    REG_DWORD    0x10\r\n").data =
        some ("10").data ∧
    readNinjaDeviceId "win32"
      (.ok "DeviceId    REG_SZ    99\r\nDeviceId    REG_DWORD    0x10\r\n") [] =
        some 16 :=
  ⟨by decide,
   C7_ninja_device_id.2.2 "DeviceId    REG_SZ    99\r\nDeviceId    REG_DWORD    0x10\r\n"
     ("10").data (by decide)⟩

/-! ## Claim C8 -/

theorem groupGo_false_eq (ys : List Char) (h3 : ys.length % 3 = 0)
    (hne : ys ≠ []) : groupGo false ys = ' ' :: groupGo true ys := by
  cases ys with
  | nil => exact absurd rfl hne
  | cons c rest =>
    have h1 : ((rest.length + 1) % 3 == 0) = true := by
      simp only [List.length_cons] at h3
      simp [h3]
    simp [groupGo, h1]

theorem groupGo_append (ys : List Char) (h3 : ys.length % 3 = 0)
    (hne : ys ≠ []) :
    ∀ (b : Bool) (xs : List Char), xs ≠ [] →
      groupGo b (xs ++ ys) = groupGo b xs ++ ' ' :: groupGo true ys := by
  intro b xs
  induction xs generalizing b with
  | nil => intro h; exact absurd rfl h
  | cons x xs2 ih =>
    intro _
    have hstep : ∀ (b2 : Bool) (t : List Char),
        groupGo b2 (x :: t) =
          (if !b2 && (t.length + 1) % 3 == 0 then [' '] else []) ++
            x :: groupGo false t := fun b2 t => rfl
    rcases eq_or_ne xs2 [] with hx | hx
    · subst hx
      rw [show (x :: [] : List Char) ++ ys = x :: ys from rfl]
      rw [hstep b ys, hstep b []]
      rw [groupGo_false_eq ys h3 hne]
      have h1 : ((ys.length + 1) % 3 == 0) = false := by
        have h2 : (ys.length + 1) % 3 ≠ 0 := by omega
        simp [h2]
      simp [h1, groupGo]
    · rw [show (x :: xs2) ++ ys = x :: (xs2 ++ ys) from rfl]
      rw [hstep b (xs2 ++ ys), hstep b xs2]
      rw [ih false hx]
      have hlen : ((xs2 ++ ys).length + 1) % 3 = (xs2.length + 1) % 3 := by
        simp only [List.length_append]
        omega
      rw [hlen]
      simp

theorem groupGo_eq_rchunk_rev :
    ∀ (n : Nat) (r : List Char), r.length ≤ n →
      groupGo true r.reverse = (rchunk r).reverse := by
  intro n
  induction n with
  | zero =>
    intro r h
    have : r = [] := List.eq_nil_of_length_eq_zero (Nat.le_zero.mp h)
    subst this
    rfl
  | succ n ih =>
    intro r hr
    rcases r with _ | ⟨a, _ | ⟨b, _ | ⟨c, _ | ⟨d, rest⟩⟩⟩⟩
    · rfl
    · rfl
    · rfl
    · rfl
    · have hrev : (a :: b :: c :: d :: rest).reverse =
          (d :: rest).reverse ++ [c, b, a] := by
        simp
      rw [hrev]
      rw [groupGo_append [c, b, a] (by simp) (by simp) true
        ((d :: rest).reverse) (by simp)]
      have hcba : groupGo true [c, b, a] = [c, b, a] := rfl
      rw [hcba]
      rw [ih (d :: rest) (by
        simp only [List.length_cons] at hr ⊢
        omega)]
      rw [show rchunk (a :: b :: c :: d :: rest) =
        a :: b :: c :: ' ' :: rchunk (d :: rest) from rfl]
      simp

/-- The code's left-to-right regex-replace grouping agrees with the spec's
"groups of three from the right, separated by single spaces". -/
theorem groupDigits_eq_groupsOfThreeFromRight (s : String) :
    groupDigits s = groupsOfThreeFromRight s := by
  unfold groupDigits groupsOfThreeFromRight
  congr 1
  have h := groupGo_eq_rchunk_rev s.data.reverse.length s.data.reverse
    (Nat.le_refl _)
  simpa using h

/-- C8: the TeamViewer ID formatting groups the decimal digits in groups
of three from the right, separated by single spaces (proved for every
digit string), and the raw ID 1234567890 — read from a registry output as
`REG_DWORD` 0x499602d2 — formats as "1 234 567 890". -/
theorem C8_teamviewer_id_format :
    (∀ s : String, groupDigits s = groupsOfThreeFromRight s) ∧
    groupDigits "1234567890" = "1 234 567 890" ∧
    readTeamViewerId "win32"
        [.ok ("\r\nHKEY_LOCAL_MACHINE\\SOFTWARE\\TeamViewer\r\n" ++
          "    ClientID    REG_DWORD    0x499602d2\r\n\r\n")]
        [] (.error ()) = some "1 234 567 890" :=
  ⟨groupDigits_eq_groupsOfThreeFromRight, by decide, by decide⟩

/-! ## Claim C3 -/

theorem append_ne_empty_of_left (s t : String) (h : s ≠ "") : s ++ t ≠ "" := by
  intro hc
  apply h
  have hd := congrArg String.data hc
  rw [String.data_append] at hd
  have : s.data = [] := (List.append_eq_nil.mp hd).1
  cases s
  simpa [mk_eq_empty_iff] using this

theorem jsToUpperCase_ne_empty (s : String) (h : s ≠ "") :
    jsToUpperCase s ≠ "" := by
  unfold jsToUpperCase
  rw [Ne, mk_eq_empty_iff, List.map_eq_nil_iff]
  intro hc
  apply h
  cases s
  simpa [mk_eq_empty_iff] using hc

theorem getPrimaryMacAddress_ne_some_empty
    (m : List (String × Option (List NetIface))) :
    getPrimaryMacAddress m ≠ some "" := by
  rw [getPrimaryMacAddress_eq_find]
  cases hf : (flatIfaces m).find? macPick with
  | none => simp
  | some i =>
    have hpick := List.find?_some hf
    simp only [macPick, Bool.and_eq_true, bne_iff_ne, ne_eq] at hpick
    simp only [Option.map_some', ne_eq, Option.some.injEq]
    exact fun hc => jsToUpperCase_ne_empty i.mac hpick.1.2 hc

theorem getDiskInfo_ne_some_empty (p : String) (e : Except Unit String) :
    (getDiskInfo p e).1 ≠ some "" ∧ (getDiskInfo p e).2 ≠ some "" := by
  rcases getDiskInfo_shape p e with h | ⟨v, w, h⟩ <;> rw [h]
  · simp
  · constructor <;> simp only [ne_eq, Option.some.injEq]
    · exact fun hc => gbString_ne_empty v hc
    · exact fun hc => gbString_ne_empty w hc

theorem getHardwareInfo_manufacturer_ne_some_empty (p : String)
    (a b c : Except Unit String) :
    (getHardwareInfo p a b c).manufacturer ≠ some "" := by
  unfold getHardwareInfo
  repeat' split
  all_goals
    first
    | exact orNull_ne_some_empty _
    | (intro hc
       exact append_ne_empty_of_left "Apple " _ (by decide) (Option.some.inj hc))
    | simp

theorem getHardwareInfo_win_serial_model_ne_some_empty
    (a b c : Except Unit String) :
    (getHardwareInfo "win32" a b c).serialNumber ≠ some "" ∧
    (getHardwareInfo "win32" a b c).model ≠ some "" := by
  unfold getHardwareInfo
  rw [if_pos (by decide)]
  constructor <;>
    (repeat' split
     all_goals
       first
       | exact orNull_ne_some_empty _
       | simp)

theorem bindRunPlus_ne_nil (p : Char → Bool) (x : Option (List Char))
    (d : List Char) (h : x.bind (runPlus p) = some d) : d ≠ [] := by
  cases x with
  | none => simp at h
  | some a => exact runPlus_some_ne_nil p a d (by simpa using h)

theorem int32ClientIdAt_some_ne_nil (l d : List Char)
    (h : int32ClientIdAt l = some d) : d ≠ [] := by
  unfold int32ClientIdAt at h
  exact bindRunPlus_ne_nil isDec _ d h

theorem readTeamViewerId_ne_some_empty (p : String)
    (regs defs : List (Except Unit String)) (conf : Except Unit String) :
    readTeamViewerId p regs defs conf ≠ some "" := by
  unfold readTeamViewerId
  by_cases hw : (p == "win32") = true
  · rw [if_pos hw]
    intro hc
    refine firstHit_some _ (fun v => v ≠ "") ?_ regs "" hc rfl
    intro s v hv
    rcases Option.map_eq_some'.mp hv with ⟨hex, hscan, hveq⟩
    subst hveq
    exact groupDigits_ne_empty _ (natToString_ne_empty (hexVal hex))
  · rw [if_neg hw]
    by_cases hd : (p == "darwin") = true
    · rw [if_pos hd]
      cases hfh : firstHit (fun s =>
          let id := jsTrim s
          if id != "" && id.data.all isDec then some (groupDigits id) else none)
          defs with
      | some v =>
        intro hc
        have hveq : v = "" := by simpa using hc
        subst hveq
        refine firstHit_some _ (fun w => w ≠ "") ?_ defs "" hfh rfl
        intro s w hwv
        dsimp only at hwv
        split at hwv
        · rename_i hcond
          simp only [Bool.and_eq_true, bne_iff_ne, ne_eq] at hcond
          cases hwv
          exact groupDigits_ne_empty _ hcond.1
        · exact absurd hwv (by simp)
      | none =>
        show (match conf with
          | Except.error _ => none
          | Except.ok cs =>
            (scanFirst int32ClientIdAt cs.data).map
              (fun d2 => groupDigits (String.mk d2))) ≠ some ""
        cases conf with
        | error u => simp
        | ok cs =>
          simp only [ne_eq, Option.map_eq_some']
          rintro ⟨d, hscan, hgd⟩
          have hne : d ≠ [] :=
            scanFirst_some int32ClientIdAt (fun r => r ≠ [])
              (fun suf r hr => int32ClientIdAt_some_ne_nil suf r hr) cs.data d hscan
          refine groupDigits_ne_empty (String.mk d) ?_ hgd
          rw [Ne, mk_eq_empty_iff]
          exact hne
    · rw [if_neg hd]
      simp

theorem readTeamViewerVersion_nonwin_ne_some_empty (p : String)
    (regs : List (Except Unit String)) (d : Except Unit String)
    (h : p ≠ "win32") :
    readTeamViewerVersion p regs d ≠ some "" := by
  unfold readTeamViewerVersion
  rw [if_neg (by simp [h])]
  by_cases hd : (p == "darwin") = true
  · rw [if_pos hd]
    cases d with
    | error u => simp
    | ok s =>
      dsimp only
      split
      · rename_i hcond
        simp only [bne_iff_ne, ne_eq] at hcond
        simp only [ne_eq, Option.some.injEq]
        exact hcond
      · simp
  · rw [if_neg hd]
    simp

/-- C3 counterexample: on Windows, when `echo %USERDOMAIN%` prints only
whitespace, `getDomain` trims it to the empty string, which differs from
the literal "%USERDOMAIN%", so the collected record's domain field becomes
the empty string rather than null — contradicting "no nullable field is
ever the empty string". -/
theorem C3_counterexample :
    (collectDeviceContext envDomainBlank).map DeviceContext.domain =
      .ok (some "") := rfl

/-- C3 amended: failed probes yield null, and the MAC, disk, manufacturer
and TeamViewer-ID fields can never be the empty string (nor is a zero used
for "unknown"); the Windows CSV-parsed serial and model apply an explicit
empty-to-null coercion, and the TeamViewer version is guarded against
emptiness on the non-Windows path.  The exceptions the counterexample
forces are the Windows domain probe (shown empty in the counterexample)
and, analogously, the macOS regex-extracted serial/model and the Windows
TeamViewer version, whose parsed text is not coerced to null when it trims
to the empty string. -/
theorem C3_nullable_fields_never_empty_string (env : Env)
    (ctx : DeviceContext) (hok : collectDeviceContext env = .ok ctx) :
    ctx.macAddress ≠ some "" ∧
    ctx.diskTotal ≠ some "" ∧
    ctx.diskFree ≠ some "" ∧
    ctx.manufacturer ≠ some "" ∧
    ctx.teamviewerId ≠ some "" ∧
    (env.platform = "win32" →
      ctx.serialNumber ≠ some "" ∧
      ctx.model ≠ some "") ∧
    (env.platform ≠ "win32" →
      ctx.teamviewerVersion ≠ some "") := by
  have hrec : ∃ u, env.username = .ok u ∧ ctx = collectedRecord env u := by
    unfold collectDeviceContext at hok
    cases hu : env.username with
    | error e =>
      rw [hu] at hok
      exact absurd hok (by simp)
    | ok u =>
      rw [hu] at hok
      exact ⟨u, rfl, (Except.ok.inj hok).symm⟩
  obtain ⟨u, hu, hctx⟩ := hrec
  subst hctx
  refine ⟨getPrimaryMacAddress_ne_some_empty _,
    (getDiskInfo_ne_some_empty _ _).1,
    (getDiskInfo_ne_some_empty _ _).2,
    getHardwareInfo_manufacturer_ne_some_empty _ _ _ _,
    readTeamViewerId_ne_some_empty _ _ _ _,
    ?_, ?_⟩
  · intro hp
    have h := getHardwareInfo_win_serial_model_ne_some_empty
      env.hwSerialExec env.hwProductExec env.profilerExec
    constructor
    · show (getHardwareInfo env.platform env.hwSerialExec env.hwProductExec
        env.profilerExec).serialNumber ≠ some ""
      rw [hp]
      exact h.1
    · show (getHardwareInfo env.platform env.hwSerialExec env.hwProductExec
        env.profilerExec).model ≠ some ""
      rw [hp]
      exact h.2
  · intro hp
    show readTeamViewerVersion env.platform env.tvVersionRegExecs
      env.tvVersionDefaults ≠ some ""
    exact readTeamViewerVersion_nonwin_ne_some_empty _ _ _ hp

/-- Witness for the amended C3 at concrete machine states (one Windows,
one macOS). -/
theorem C3_nullable_fields_never_empty_string_witness :
    (collectDeviceContext envDomainBlank).map DeviceContext.serialNumber ≠
      .ok (some "") ∧
    (collectDeviceContext
        { envDomainBlank with platform := "darwin" }).map
      DeviceContext.teamviewerVersion ≠ .ok (some "") := by
  constructor
  · cases hok : collectDeviceContext envDomainBlank with
    | error e => simp [Except.map]
    | ok ctx =>
      simp only [Except.map, ne_eq, Except.ok.injEq]
      exact ((C3_nullable_fields_never_empty_string envDomainBlank ctx
        hok).2.2.2.2.2.1 rfl).1
  · cases hok : collectDeviceContext
        { envDomainBlank with platform := "darwin" } with
    | error e => simp [Except.map]
    | ok ctx =>
      simp only [Except.map, ne_eq, Except.ok.injEq]
      exact (C3_nullable_fields_never_empty_string _ ctx
        hok).2.2.2.2.2.2 (by decide)

/-! ## Claim C1 -/

theorem getDomain_error (p : String) : getDomain p (.error ()) = none := by
  unfold getDomain
  split <;> rfl

theorem getHardwareInfo_all_error (p : String) :
    getHardwareInfo p (.error ()) (.error ()) (.error ()) = ⟨none, none, none⟩ := by
  unfold getHardwareInfo
  split
  · rfl
  · split <;> rfl

theorem readNinjaDeviceId_fail (p : String)
    (confs : List (Except Unit String)) (hc : ∀ r ∈ confs, r = .error ()) :
    readNinjaDeviceId p (.error ()) confs = none := by
  unfold readNinjaDeviceId
  split
  · rfl
  · split
    · exact firstHit_all_error _ confs hc
    · rfl

theorem readTeamViewerId_fail (p : String)
    (regs defs : List (Except Unit String))
    (hr : ∀ r ∈ regs, r = .error ()) (hd : ∀ r ∈ defs, r = .error ()) :
    readTeamViewerId p regs defs (.error ()) = none := by
  unfold readTeamViewerId
  split
  · exact firstHit_all_error _ regs hr
  · split
    · rw [firstHit_all_error _ defs hd]
    · rfl

theorem readTeamViewerVersion_fail (p : String)
    (regs : List (Except Unit String)) (hr : ∀ r ∈ regs, r = .error ()) :
    readTeamViewerVersion p regs (.error ()) = none := by
  unfold readTeamViewerVersion
  split
  · exact firstHit_all_error _ regs hr
  · split <;> rfl

/-- C1 (code bug): the claim — and the spec ("Nothing in this core is
fatal to the process", "For all platforms, `collect()` never throws") —
says collection never throws, but `loggedInUser: os.userInfo().username`
(`device-context.ts` line 58) is not under any try/catch and
`os.userInfo()` is documented to throw a `SystemError` when the process
uid has no user-database entry.  At such a machine state the collection
aborts with the propagated exception instead of degrading the field to a
sentinel; the username read is the one and only throw path — every other
probe outcome, however bad, still yields an `.ok` record. -/
theorem C1_username_throw_aborts_collection :
    collectDeviceContext { envAllFail with username := .error () } =
      .error () ∧
    (∀ env : Env,
      collectDeviceContext env = .error () ↔ env.username = .error ()) := by
  constructor
  · rfl
  · intro env
    constructor
    · intro h
      unfold collectDeviceContext at h
      cases hu : env.username with
      | error e =>
        cases e
        rfl
      | ok u =>
        rw [hu] at h
        exact absurd h (by simp [collectDeviceContext])
    · intro h
      unfold collectDeviceContext
      rw [h]

/-- Supporting fact for C1: whenever the `os.userInfo()` read succeeds,
the collection succeeds, and with every catchable probe failing the
produced record is fully null-filled with the loopback / "Unknown"
sentinels — so the username read is the sole deviation from the claimed
degrade-to-sentinel behavior. -/
theorem collect_ok_of_username_ok (env : Env) (h : allProbesFail env)
    (ctx : DeviceContext) (hok : collectDeviceContext env = .ok ctx) :
    ctx.ipAddress = "127.0.0.1" ∧
    ctx.macAddress = none ∧
    ctx.domain = none ∧
    ctx.cpu = "Unknown" ∧
    ctx.diskTotal = none ∧
    ctx.diskFree = none ∧
    ctx.serialNumber = none ∧
    ctx.manufacturer = none ∧
    ctx.model = none ∧
    ctx.ninjaDeviceId = none ∧
    ctx.teamviewerId = none ∧
    ctx.teamviewerVersion = none := by
  have hrec : ∃ u, env.username = .ok u ∧ ctx = collectedRecord env u := by
    unfold collectDeviceContext at hok
    cases hu : env.username with
    | error e =>
      rw [hu] at hok
      exact absurd hok (by simp)
    | ok u =>
      rw [hu] at hok
      exact ⟨u, rfl, (Except.ok.inj hok).symm⟩
  obtain ⟨u, hu, hctx⟩ := hrec
  subst hctx
  obtain ⟨hcpus, hif, hsw, hdisk, hser, hprod, hprof, hdom, hnreg, hnconf,
    htvc, htvd, htvg, htvvr, htvvd⟩ := h
  refine ⟨?_, ?_, ?_, ?_, ?_, ?_, ?_, ?_, ?_, ?_, ?_, ?_⟩
  · show getPrimaryIpAddress env.interfaces = "127.0.0.1"
    rw [hif]
    rfl
  · show getPrimaryMacAddress env.interfaces = none
    rw [hif]
    rfl
  · show getDomain env.platform env.domainExec = none
    rw [hdom]
    exact getDomain_error _
  · show (match env.cpus with
      | [] => "Unknown"
      | m :: _ => jsTrim m) = "Unknown"
    rw [hcpus]
  · show (getDiskInfo env.platform env.diskExec).1 = none
    rw [hdisk]
    rfl
  · show (getDiskInfo env.platform env.diskExec).2 = none
    rw [hdisk]
    rfl
  · show (getHardwareInfo env.platform env.hwSerialExec env.hwProductExec
      env.profilerExec).serialNumber = none
    rw [hser, hprod, hprof, getHardwareInfo_all_error]
  · show (getHardwareInfo env.platform env.hwSerialExec env.hwProductExec
      env.profilerExec).manufacturer = none
    rw [hser, hprod, hprof, getHardwareInfo_all_error]
  · show (getHardwareInfo env.platform env.hwSerialExec env.hwProductExec
      env.profilerExec).model = none
    rw [hser, hprod, hprof, getHardwareInfo_all_error]
  · show readNinjaDeviceId env.platform env.ninjaRegExec
      env.ninjaConfReads = none
    rw [hnreg]
    exact readNinjaDeviceId_fail _ _ hnconf
  · show readTeamViewerId env.platform env.tvClientRegExecs
      env.tvDefaultsReads env.tvGlobalConf = none
    rw [htvg]
    exact readTeamViewerId_fail _ _ _ htvc htvd
  · show readTeamViewerVersion env.platform env.tvVersionRegExecs
      env.tvVersionDefaults = none
    rw [htvvd]
    exact readTeamViewerVersion_fail _ _ htvvr

end AtlasWidget
